import Mathlib

/-!
Verification of the `file_update_monitor` library (src/lib.rs): a shallow
embedding of the `Monitor` struct, its event classifier, its watch loop,
the bounded event channel created by `create_watcher`, and the per-key
debouncer it delegates to, the `debounce` crate's `EventDebouncer`.
-/

/-- Outcome of Rust code that may panic (via `unwrap()`): `panic` models a
process abort, `ok a` a normal return of `a`. -/
inductive PanicOr (α : Type) where
  | panic : PanicOr α
  | ok : α → PanicOr α
deriving DecidableEq, Repr

/-- Models a Rust `PathBuf`/`&Path`: an OS path whose `to_str()` is
`some s` when the path is valid UTF-8 and `none` otherwise. -/
structure OsPath where
  toStr : Option String
deriving DecidableEq, Repr

/-- Models `notify::event::DataChange`. -/
inductive DataChange where
  | any | size | content | other
deriving DecidableEq, Repr

/-- Models `notify::event::ModifyKind`. -/
inductive ModifyKind where
  | any
  | data : DataChange → ModifyKind
  | metadata
  | name
  | other
deriving DecidableEq, Repr

/-- Models `notify::EventKind`. The payloads of the non-`Modify` variants
(`AccessKind`, `CreateKind`, `RemoveKind`) are elided because the classifier
in src/lib.rs only pattern-matches the `Modify(Data(Content))` shape. -/
inductive EventKind where
  | any
  | access
  | create
  | modify : ModifyKind → EventKind
  | remove
  | other
deriving DecidableEq, Repr

/-- Models `notify::Event`: a kind plus the ordered list of affected paths. -/
structure Event where
  kind : EventKind
  paths : List OsPath
deriving DecidableEq, Repr

/-- Models the `Monitor` struct of src/lib.rs: directory string, update
interval in milliseconds (`u64` embedded as `Nat`), and the user callback
(`Fn(String) -> Result<()>`, errors embedded as `String`). -/
structure Monitor where
  dir : String
  update_interval : Nat
  on_change : String → Except String Unit

/-- Models `Monitor::new` (src/lib.rs lines 74-83): stores the directory
string (`dir.to_string()`), the interval, and the callback, with no other
effect and no validation. -/
def Monitor.new (dir : String) (update_interval : Nat)
    (on_change : String → Except String Unit) : Monitor :=
  { dir := dir, update_interval := update_interval, on_change := on_change }

/-- The `matches!(event.kind, Modify(Data(Content)))` test of
`Monitor::get_valid_path`. -/
def is_content_modify (k : EventKind) : Bool :=
  match k with
  | .modify (.data .content) => true
  | _ => false

/-- Models `Monitor::get_valid_path` (src/lib.rs lines 140-154): returns
`ok none` for a non-content-modification kind, otherwise maps the first
path through `to_str().unwrap().to_string()`; the `unwrap()` panics when
the first path is not valid UTF-8, and an empty path list yields `ok none`. -/
def Monitor.get_valid_path (_m : Monitor) (event : Event) : PanicOr (Option String) :=
  if is_content_modify event.kind then
    match event.paths.head? with
    | none => .ok none
    | some p =>
      match p.toStr with
      | some s => .ok (some s)
      | none => .panic
  else
    .ok none

/-- Models the closure `move |path: String| on_change(path).unwrap()` that
`Monitor::watch_directory` (src/lib.rs line 98) installs as the
`EventDebouncer` callback: a callback error is `unwrap()`ed, i.e. the
process panics instead of containing the error. -/
def debouncer_callback (on_change : String → Except String Unit)
    (path : String) : PanicOr Unit :=
  match on_change path with
  | .ok _ => .ok ()
  | .error _ => .panic

/-- Observable outcome of the `while let` loop of `Monitor::watch_directory`:
the paths handed to `debouncer.put` in order, and the `eprintln!` log lines
emitted for per-event provider errors. -/
structure LoopOut where
  puts : List String
  logs : List String
deriving DecidableEq, Repr

/-- Models the `while let Some(res) = rx.next().await` loop of
`Monitor::watch_directory` (src/lib.rs lines 103-112): an `Ok` event is
classified and, when a path is extracted, handed to `debouncer.put`; an
`Err` is logged and the loop continues; a classifier panic aborts. -/
def watchLoop (m : Monitor) : List (Except String Event) → List String → List String →
    PanicOr LoopOut
  | [], puts, logs => .ok ⟨puts, logs⟩
  | .ok e :: rest, puts, logs =>
    match m.get_valid_path e with
    | .panic => .panic
    | .ok none => watchLoop m rest puts logs
    | .ok (some p) => watchLoop m rest (puts ++ [p]) logs
  | .error msg :: rest, puts, logs =>
    watchLoop m rest puts (logs ++ ["File monitoring error: " ++ msg])

/-- Models `Monitor::watch_directory` (src/lib.rs lines 94-114): `reg` is the
combined result of `create_watcher()?` and `watcher.watch(...)?`; a
registration error is returned by `?` before any event is processed,
otherwise the event loop runs over the provider's event sequence. -/
def Monitor.watch_directory (m : Monitor) (reg : Except String Unit)
    (events : List (Except String Event)) : Except String (PanicOr LoopOut) :=
  match reg with
  | .error e => .error e
  | .ok _ => .ok (watchLoop m events [] [])

/-- Models `Monitor::start` (src/lib.rs lines 88-92): any error returned by
`watch_directory` is caught and printed (`eprintln!`), so `start` itself
returns no error to the Monitor's caller; a panic inside the loop still
aborts. The result is the list of log lines visible to the caller. -/
def Monitor.start (m : Monitor) (reg : Except String Unit)
    (events : List (Except String Event)) : PanicOr (List String) :=
  match m.watch_directory reg events with
  | .error e => .ok ["File monitoring error: " ++ e]
  | .ok (.ok out) => .ok out.logs
  | .ok .panic => .panic

/-- The paths handed to the debouncer by a `watch_directory` run (empty when
registration failed or the loop panicked). -/
def putsOf (r : Except String (PanicOr LoopOut)) : List String :=
  match r with
  | .ok (.ok out) => out.puts
  | _ => []

/-- The log lines the watch loop emits for the provider errors in `events`,
in order. -/
def errMsgs : List (Except String Event) → List String
  | [] => []
  | .ok _ :: rest => errMsgs rest
  | .error msg :: rest => ("File monitoring error: " ++ msg) :: errMsgs rest

/-- The paths the classifier extracts from the `Ok` events of `events`, in
order, skipping dropped events. -/
def okPuts (m : Monitor) : List (Except String Event) → List String
  | [] => []
  | .error _ :: rest => okPuts m rest
  | .ok e :: rest =>
    match m.get_valid_path e with
    | .ok (some p) => p :: okPuts m rest
    | _ => okPuts m rest

/-- True when no `Ok` event in the sequence makes the classifier panic. -/
def eventsNoPanic (m : Monitor) (events : List (Except String Event)) : Bool :=
  events.all fun r =>
    match r with
    | .error _ => true
    | .ok e => decide (m.get_valid_path e ≠ .panic)

/-- Modelled from the spec: the `debounce` crate's `EventDebouncer` used by
`Monitor::watch_directory` is an external dependency whose source is not in
this repository; this is its per-key pending-timer entry from the spec's
data model: a key together with the deadline of its pending timer. -/
structure DebEntry where
  key : String
  deadline : Nat
deriving DecidableEq, Repr

/-- Modelled from the spec: debouncer state, the mapping from keys to
pending timers plus the record of firings already delivered to the user
callback, each tagged with the time at which it fired. -/
structure DebState where
  pending : List DebEntry
  fired : List (String × Nat)
deriving DecidableEq, Repr

/-- The debouncer state before any `put`: no pending timer, no firing. -/
def initDeb : DebState := ⟨[], []⟩

/-- Modelled from the spec: at time `now`, every pending timer whose
deadline has elapsed fires, invoking the callback once with its key and
removing its entry. -/
def fireDue (now : Nat) (s : DebState) : DebState :=
  ⟨s.pending.filter fun e => decide (now < e.deadline),
   s.fired ++ (s.pending.filter fun e => decide (e.deadline ≤ now)).map
     fun e => (e.key, e.deadline)⟩

/-- Modelled from the spec: `put(key)` at time `now` with delay `d` first
lets any due timers fire, then cancels the previous timer for `key` (if
any) and schedules a new one with deadline `now + d`. -/
def putDeb (d now : Nat) (k : String) (s : DebState) : DebState :=
  let s1 := fireDue now s
  ⟨⟨k, now + d⟩ :: s1.pending.filter fun e => decide (e.key ≠ k), s1.fired⟩

/-- Runs a time-ordered schedule of `put` arrivals, each a (time, key)
pair, through the debouncer. -/
def runDeb (d : Nat) : List (Nat × String) → DebState → DebState
  | [], s => s
  | (t, k) :: rest, s => runDeb d rest (putDeb d t k s)

/-- Lets time run to infinity after the schedule ends: every still-pending
timer fires at its deadline. The result lists every callback invocation as
a (key, firing time) pair, in order. -/
def flushDeb (s : DebState) : List (String × Nat) :=
  s.fired ++ s.pending.map fun e => (e.key, e.deadline)

/-- A bounded FIFO queue, modelling `futures::channel::mpsc::channel(cap)`:
`cap` is the capacity bound, `buf` the buffered items. -/
structure BoundedQueue (α : Type) where
  cap : Nat
  buf : List α

/-- Sending into the queue succeeds only while the buffer is below
capacity; `none` means the sender blocks (the provider's notification
thread stalls in the synchronous hand-off). -/
def BoundedQueue.send (q : BoundedQueue α) (x : α) : Option (BoundedQueue α) :=
  if q.buf.length < q.cap then some ⟨q.cap, q.buf ++ [x]⟩ else none

/-- Receiving pops the oldest buffered item, `none` when the queue is
empty (the consumer suspends). -/
def BoundedQueue.recv (q : BoundedQueue α) : Option (α × BoundedQueue α) :=
  match q.buf with
  | [] => none
  | x :: rest => some (x, ⟨q.cap, rest⟩)

/-- One provider-side or consumer-side queue operation. -/
inductive QOp (α : Type) where
  | send : α → QOp α
  | recv : QOp α

/-- Applies one operation to the queue; a blocked send or an empty-queue
receive leaves the queue unchanged (the blocked party just waits). -/
def qstep (q : BoundedQueue α) : QOp α → BoundedQueue α
  | .send x =>
    match q.send x with
    | some q1 => q1
    | none => q
  | .recv =>
    match q.recv with
    | some (_, q1) => q1
    | none => q

/-- Runs a sequence of queue operations. -/
def runQueue : List (QOp α) → BoundedQueue α → BoundedQueue α
  | [], q => q
  | op :: rest, q => runQueue rest (qstep q op)

/-- Models `Monitor::create_watcher` (src/lib.rs lines 118-135): the bridge
between the provider callback and the consumer is `channel(1)`, a bounded
queue created with capacity 1 and an empty buffer. -/
def Monitor.create_watcher (_m : Monitor) : BoundedQueue (Except String Event) :=
  ⟨1, []⟩

/-- A sample monitor used by concrete witnesses. -/
def mon0 : Monitor := Monitor.new "./" 1000 fun _ => .ok ()

lemma watchLoop_spec (m : Monitor) :
    ∀ (events : List (Except String Event)) (puts logs : List String),
    eventsNoPanic m events = true →
    watchLoop m events puts logs = .ok ⟨puts ++ okPuts m events, logs ++ errMsgs events⟩ := by
  intro events
  induction events with
  | nil =>
    intro puts logs _
    simp [watchLoop, okPuts, errMsgs]
  | cons r rest ih =>
    intro puts logs h
    cases r with
    | error msg =>
      have hrest : eventsNoPanic m rest = true := by
        simpa [eventsNoPanic] using h
      simp [watchLoop, okPuts, errMsgs, ih _ _ hrest]
    | ok e =>
      rw [eventsNoPanic, List.all_cons, Bool.and_eq_true] at h
      obtain ⟨he, hrest⟩ := h
      rw [decide_eq_true_eq] at he
      rcases hv : m.get_valid_path e with _ | op
      · exact absurd hv he
      · cases op with
        | none => simp [watchLoop, okPuts, errMsgs, hv, ih _ _ hrest]
        | some p => simp [watchLoop, okPuts, errMsgs, hv, ih _ _ hrest]

lemma runDeb_single (d : Nat) (k : String) :
    ∀ (ts : List Nat) (t : Nat),
    List.Chain (fun a b => a ≤ b ∧ b < a + d) t ts →
    runDeb d (ts.map fun x => (x, k)) ⟨[⟨k, t + d⟩], []⟩ =
      ⟨[⟨k, (t :: ts).getLast (List.cons_ne_nil t ts) + d⟩], []⟩ := by
  intro ts
  induction ts with
  | nil =>
    intro t _
    simp [runDeb, List.getLast]
  | cons t1 rest ih =>
    intro t hch
    rw [List.chain_cons] at hch
    obtain ⟨⟨h1, h2⟩, hch1⟩ := hch
    have step : putDeb d t1 k ⟨[⟨k, t + d⟩], []⟩ = ⟨[⟨k, t1 + d⟩], []⟩ := by
      simp [putDeb, fireDue, List.filter, h2, Nat.not_le.mpr h2]
    rw [List.map_cons, runDeb, step, ih t1 hch1]
    simp [List.getLast_cons]

lemma putDeb_nodup (d now : Nat) (k : String) (s : DebState)
    (h : (s.pending.map DebEntry.key).Nodup) :
    ((putDeb d now k s).pending.map DebEntry.key).Nodup := by
  simp only [putDeb, fireDue, List.map_cons, List.nodup_cons]
  constructor
  · intro hk
    rw [List.mem_map] at hk
    obtain ⟨e, he, hke⟩ := hk
    rw [List.mem_filter, decide_eq_true_eq] at he
    exact he.2 hke
  · have hsub :
        List.Sublist
          ((s.pending.filter fun e => decide (now < e.deadline)).filter
            fun e => decide (e.key ≠ k)) s.pending :=
      (List.filter_sublist _).trans (List.filter_sublist _)
    exact h.sublist (hsub.map DebEntry.key)

lemma runDeb_nodup (d : Nat) :
    ∀ (puts : List (Nat × String)) (s : DebState),
    (s.pending.map DebEntry.key).Nodup →
    ((runDeb d puts s).pending.map DebEntry.key).Nodup := by
  intro puts
  induction puts with
  | nil => intro s h; exact h
  | cons p rest ih =>
    intro s h
    obtain ⟨t, k⟩ := p
    rw [runDeb]
    exact ih _ (putDeb_nodup d t k s h)

lemma runQueue_inv {α : Type} :
    ∀ (ops : List (QOp α)) (q : BoundedQueue α),
    (runQueue ops q).cap = q.cap ∧
    (q.buf.length ≤ q.cap → (runQueue ops q).buf.length ≤ q.cap) := by
  intro ops
  induction ops with
  | nil => intro q; exact ⟨rfl, fun h => h⟩
  | cons op rest ih =>
    intro q
    have hstep : (qstep q op).cap = q.cap ∧
        (q.buf.length ≤ q.cap → (qstep q op).buf.length ≤ q.cap) := by
      obtain ⟨c, buf⟩ := q
      cases op with
      | send x =>
        by_cases hlt : buf.length < c
        · refine ⟨by simp [qstep, BoundedQueue.send, hlt], ?_⟩
          intro _
          simp only [qstep, BoundedQueue.send]
          simp [hlt]
          omega
        · exact ⟨by simp [qstep, BoundedQueue.send, hlt], fun h => by
            simpa [qstep, BoundedQueue.send, hlt] using h⟩
      | recv =>
        cases buf with
        | nil => exact ⟨rfl, fun h => h⟩
        | cons y ys =>
          refine ⟨rfl, fun h => ?_⟩
          simp only [qstep, BoundedQueue.recv]
          simp at h ⊢
          omega
    refine ⟨?_, ?_⟩
    · rw [runQueue, (ih (qstep q op)).1, hstep.1]
    · intro hq
      rw [runQueue]
      have h3 : (qstep q op).buf.length ≤ (qstep q op).cap := by
        rw [hstep.1]
        exact hstep.2 hq
      have h4 := (ih (qstep q op)).2 h3
      rw [hstep.1] at h4
      exact h4

/-- C1: the claim says a callback error on a debounce firing is contained
(logged, watch loop continues, no panic). The code is wrong: line 98 of
src/lib.rs installs `move |path| on_change(path).unwrap()` as the
debouncer callback, so a callback that returns an error panics the whole
process, while only a succeeding callback returns normally. -/
theorem c1_callback_error_panics :
    debouncer_callback (fun _ => .error "disk full") "a.txt" = .panic ∧
    debouncer_callback (fun _ => .ok ()) "a.txt" = .ok () :=
  ⟨rfl, rfl⟩

/-- C2: the claim says `get_valid_path` returns `None` without panicking on
a content-modification event whose first path is not valid UTF-8. The code
is wrong: line 153 of src/lib.rs calls `path.to_str().unwrap()`, which
panics on such a path, as the evaluation of the model at a malformed path
shows; a representable path is returned normally. -/
theorem c2_malformed_path_panics :
    mon0.get_valid_path ⟨.modify (.data .content), [⟨none⟩]⟩ = .panic ∧
    mon0.get_valid_path ⟨.modify (.data .content), [⟨some "a.txt"⟩]⟩ =
      .ok (some "a.txt") :=
  ⟨rfl, rfl⟩

/-- C3 counterexample: at a concrete failing registration,
`watch_directory` does return the registration error, but `start` — the
only entry point the Monitor's caller invokes — swallows it, returning
normally with the error only printed to the log, so the error does not
propagate to the Monitor's caller as the claim states. -/
theorem c3_start_swallows_registration_error :
    mon0.watch_directory (.error "No such file or directory (os error 2)") [] =
      .error "No such file or directory (os error 2)" ∧
    mon0.start (.error "No such file or directory (os error 2)") [] =
      .ok ["File monitoring error: No such file or directory (os error 2)"] :=
  ⟨rfl, rfl⟩

/-- C3 (amended): a registration error is fatal: `watch_directory` returns
it to its own caller before any event is processed, no path is ever handed
to the debouncer so the user callback is never invoked, and `start`
reports the error through the log side channel instead of returning it to
the Monitor's caller. -/
theorem c3_registration_error_fatal (m : Monitor) (e : String)
    (events : List (Except String Event)) :
    m.watch_directory (.error e) events = .error e ∧
    putsOf (m.watch_directory (.error e) events) = [] ∧
    flushDeb (runDeb m.update_interval
      ((putsOf (m.watch_directory (.error e) events)).map fun p => ((0 : Nat), p))
      initDeb) = [] ∧
    m.start (.error e) events = .ok ["File monitoring error: " ++ e] :=
  ⟨rfl, rfl, rfl, rfl⟩

/-- C4: for every nonempty time-ordered sequence of `put(k)` arrivals for
the same key `k` whose inter-arrival gaps are strictly less than the delay
`d`, the debouncer fires the callback exactly once for `k`, at time
(last arrival + d) — hence at a time ≥ last arrival + d — and after any
prefix of the schedule the pending-timer table holds at most one timer per
key (its key list has no duplicates). -/
theorem c4_debounce_single_firing (d : Nat) (k : String) (t0 : Nat)
    (ts : List Nat)
    (hch : List.Chain (fun a b => a ≤ b ∧ b < a + d) t0 ts) (n : Nat) :
    flushDeb (runDeb d ((t0 :: ts).map fun t => (t, k)) initDeb) =
      [(k, (t0 :: ts).getLast (List.cons_ne_nil t0 ts) + d)] ∧
    ((runDeb d (((t0 :: ts).map fun t => (t, k)).take n) initDeb).pending.map
      DebEntry.key).Nodup := by
  constructor
  · rw [List.map_cons, runDeb]
    have first : putDeb d t0 k initDeb = ⟨[⟨k, t0 + d⟩], []⟩ := rfl
    rw [first, runDeb_single d k ts t0 hch]
    simp [flushDeb]
  · exact runDeb_nodup d _ initDeb (by simp [initDeb])

/-- C4 witness: arrivals of key "a" at times 0, 2, 4 with delay 5 (every
gap < 5) produce exactly one firing, at time 4 + 5 = 9, and the prefix
state after two puts has no duplicate key. -/
theorem c4_debounce_single_firing_witness :
    flushDeb (runDeb 5 (([0, 2, 4] : List Nat).map fun t => (t, "a")) initDeb) =
      [("a", 9)] ∧
    ((runDeb 5 ((([0, 2, 4] : List Nat).map fun t => (t, "a")).take 2)
      initDeb).pending.map DebEntry.key).Nodup := by
  have h := c4_debounce_single_firing 5 "a" 0 [2, 4]
    (List.Chain.cons (by decide) (List.Chain.cons (by decide) List.Chain.nil)) 2
  exact ⟨h.1.trans (by decide), h.2⟩

/-- C5: every raw event whose kind is not `Modify(Data(Content))` is
classified to `None`, and the watch loop skips it without handing anything
to the debouncer: only content-modification events are forwarded. -/
theorem c5_non_content_events_dropped (m : Monitor) (e : Event)
    (h : is_content_modify e.kind = false)
    (rest : List (Except String Event)) (puts logs : List String) :
    m.get_valid_path e = .ok none ∧
    watchLoop m (.ok e :: rest) puts logs = watchLoop m rest puts logs := by
  have h1 : m.get_valid_path e = .ok none := by
    simp [Monitor.get_valid_path, h]
  exact ⟨h1, by simp [watchLoop, h1]⟩

/-- C5 witness: a creation event for "x" is classified to `None` and the
loop forwards nothing for it. -/
theorem c5_non_content_events_dropped_witness :
    mon0.get_valid_path ⟨.create, [⟨some "x"⟩]⟩ = .ok none ∧
    watchLoop mon0 [.ok ⟨.create, [⟨some "x"⟩]⟩] [] [] = watchLoop mon0 [] [] [] :=
  c5_non_content_events_dropped mon0 ⟨.create, [⟨some "x"⟩]⟩ rfl [] [] []

/-- C6: for an accepted (content-modification) event whose path list is
empty the classifier returns `None`, and for an accepted event whose first
path converts to the string `s` the classifier returns that first path. -/
theorem c6_first_path_extracted (m : Monitor) (e1 e2 : Event) (p : OsPath)
    (s : String)
    (hk1 : is_content_modify e1.kind = true) (hp1 : e1.paths = [])
    (hk2 : is_content_modify e2.kind = true) (hp2 : e2.paths.head? = some p)
    (hs : p.toStr = some s) :
    m.get_valid_path e1 = .ok none ∧ m.get_valid_path e2 = .ok (some s) := by
  constructor
  · simp [Monitor.get_valid_path, hk1, hp1]
  · simp [Monitor.get_valid_path, hk2, hp2, hs]

/-- C6 witness: a content-modification event with no path yields `None`; one
whose first path is "a.txt" yields "a.txt". -/
theorem c6_first_path_extracted_witness :
    mon0.get_valid_path ⟨.modify (.data .content), []⟩ = .ok none ∧
    mon0.get_valid_path ⟨.modify (.data .content), [⟨some "a.txt"⟩, ⟨some "b"⟩]⟩ =
      .ok (some "a.txt") :=
  c6_first_path_extracted mon0 ⟨.modify (.data .content), []⟩
    ⟨.modify (.data .content), [⟨some "a.txt"⟩, ⟨some "b"⟩]⟩ ⟨some "a.txt"⟩
    "a.txt" rfl rfl rfl rfl rfl

/-- C7: when no event makes the classifier panic, the watch loop runs to
the end of the provider sequence: every provider error is logged (in
order) and every later event is still processed — the loop result is
exactly the classified paths of all `Ok` events and the log lines for all
`Err` events, so a single provider error never terminates the pipeline. -/
theorem c7_provider_error_logged_loop_continues (m : Monitor)
    (events : List (Except String Event))
    (h : eventsNoPanic m events = true) :
    watchLoop m events [] [] = .ok ⟨okPuts m events, errMsgs events⟩ := by
  simpa using watchLoop_spec m events [] [] h

/-- C7 witness: a provider error between two content-modification events is
logged and both surrounding events are still forwarded. -/
theorem c7_provider_error_logged_loop_continues_witness :
    watchLoop mon0
      [.ok ⟨.modify (.data .content), [⟨some "a.txt"⟩]⟩,
       .error "backend overflow",
       .ok ⟨.modify (.data .content), [⟨some "b.txt"⟩]⟩] [] [] =
      .ok ⟨["a.txt", "b.txt"], ["File monitoring error: backend overflow"]⟩ := by
  have h := c7_provider_error_logged_loop_continues mon0
    [.ok ⟨.modify (.data .content), [⟨some "a.txt"⟩]⟩,
     .error "backend overflow",
     .ok ⟨.modify (.data .content), [⟨some "b.txt"⟩]⟩] (by decide)
  exact h.trans (by decide)

/-- C8: the queue `create_watcher` builds between the provider callback and
the consumer (`channel(1)`) has capacity 1; under any sequence of send and
receive operations its buffer never holds more than one event, and a send
into a queue of capacity 1 already holding an event blocks (returns no
new queue state). -/
theorem c8_channel_capacity_one (m : Monitor)
    (ops : List (QOp (Except String Event))) (x y : Except String Event) :
    m.create_watcher.cap = 1 ∧
    (runQueue ops m.create_watcher).buf.length ≤ 1 ∧
    BoundedQueue.send ⟨1, [y]⟩ x = none := by
  refine ⟨rfl, ?_, rfl⟩
  have h := (runQueue_inv ops m.create_watcher).2
  simpa [Monitor.create_watcher] using h (by simp [Monitor.create_watcher])

/-- C9: `Monitor::new` stores exactly the given directory string, interval
and callback — the constructed value is the record of the three arguments,
with no other state and no effect; all other operations of the embedding
consume a `Monitor` without producing a modified one. -/
theorem c9_monitor_new_stores_fields (d : String) (i : Nat)
    (f : String → Except String Unit) :
    Monitor.new d i f = ⟨d, i, f⟩ ∧
    (Monitor.new d i f).dir = d ∧
    (Monitor.new d i f).update_interval = i ∧
    (Monitor.new d i f).on_change = f :=
  ⟨rfl, rfl, rfl, rfl⟩

/-- C10: `Monitor::new` is total: it succeeds for every directory string
(the empty string included), every interval — 0 and the largest `u64`
value included — and every callback, performing no validation; an invalid
directory surfaces only later, as the registration error returned by
`watch_directory` when `start` runs. -/
theorem c10_monitor_new_total (d : String) (i : Nat)
    (f : String → Except String Unit) (e : String)
    (events : List (Except String Event)) :
    (Monitor.new d i f).dir = d ∧
    (Monitor.new "" 0 f).update_interval = 0 ∧
    (Monitor.new d (2 ^ 64 - 1) f).update_interval = 2 ^ 64 - 1 ∧
    (Monitor.new d i f).watch_directory (.error e) events = .error e :=
  ⟨rfl, rfl, rfl, rfl⟩
